import Mathlib

/-!
Shallow embedding of the AC-susceptibility noise calculator
(`suscep_calc` Python package) and proofs about its specification claims.

Conventions used throughout this development:
* Python `float` is embedded as `ℝ`, Python `complex` as `ℂ` (exact-real
  semantics; no rounding is modelled).
* Python functions that can raise are embedded as `Except String` values;
  the string is the kind of exception raised (`ZeroDivisionError`, ...).
* `complex` division raises `ZeroDivisionError` on a zero divisor in Python,
  so it is embedded by the fallible `cdiv` below.  Divisions that the source
  guards with an explicit zero test are embedded with the guard spelled out.
* Containers (`list`, numpy arrays of known rank) become `List`s.
-/

namespace SuscepCalc

/-- Python complex division: raises `ZeroDivisionError` when the divisor is
exactly zero, otherwise returns the exact quotient. -/
noncomputable def cdiv (a b : ℂ) : Except String ℂ :=
  if b = 0 then .error "ZeroDivisionError: complex division by zero" else .ok (a / b)

/-- `VACUUM_PERMEABILITY_SI` from `suscep_calc/__init__.py`
(the magnitude of `1.256637062E-6 s^2/(F m)` in SI base units). -/
noncomputable def VACUUM_PERMEABILITY_SI : ℝ := 1.256637062e-6

/-- `VACUUM_PERMITTIVITY_SI` from `suscep_calc/__init__.py`
(the magnitude of `8.85418781E-12 F/m` in SI base units). -/
noncomputable def VACUUM_PERMITTIVITY_SI : ℝ := 8.85418781e-12

/-- Python's `str.casefold()` (and `ConfigParser`'s key lowering), embedded
as per-character lowercasing; for the ASCII keys and type names this program
compares, `casefold` and `lower` coincide. -/
def pyCasefold (s : String) : String := ⟨s.data.map Char.toLower⟩

/-- `cdiv` by a nonzero divisor returns the quotient. -/
theorem cdiv_ok (a b : ℂ) (h : b ≠ 0) : cdiv a b = .ok (a / b) := by
  unfold cdiv
  rw [if_neg h]

/-- `cdiv` by zero raises `ZeroDivisionError`. -/
theorem cdiv_zero_right (a : ℂ) :
    cdiv a 0 = .error "ZeroDivisionError: complex division by zero" := by
  unfold cdiv
  rw [if_pos rfl]

/-! ## Circuit (`suscep_calc/circuit/circuit.py`)

A `CircuitElement` (`circuit_element.py`) is an interface with four methods;
it is embedded as a record of the four methods.  Ohmic elements implement
`get_voltage`/`get_diff_impedance` as `pass` (returning `None`); those fields
are never consulted for Ohmic elements, and we model them as arbitrary
functions supplied by each concrete element. -/

structure CircuitElement where
  is_ohmic : Bool
  get_impedance : ℝ → ℂ
  get_voltage : ℝ → ℂ → ℂ
  get_diff_impedance : ℝ → ℂ → ℂ

/-- `Circuit`: two element lists, partitioned at insertion time. -/
structure Circuit where
  ohmic_elements : List CircuitElement
  nonohmic_elements : List CircuitElement

/-- `Circuit.__init__(elements)`: appends each element to the Ohmic or
non-Ohmic list according to its `is_ohmic()` answer, in input order. -/
def Circuit.ofElements (elements : List CircuitElement) : Circuit :=
  elements.foldl
    (fun c e =>
      if e.is_ohmic then
        { c with ohmic_elements := c.ohmic_elements ++ [e] }
      else
        { c with nonohmic_elements := c.nonohmic_elements ++ [e] })
    ⟨[], []⟩

/-- `Circuit.is_ohmic()`. -/
def Circuit.is_ohmic (c : Circuit) : Bool := c.nonohmic_elements.length = 0

/-- Accuracy goal `EPSILON = 1.0E-4` of `Circuit.calculate_current`. -/
noncomputable def NR_EPSILON : ℝ := 1e-4

/-- Iteration cap `MAX_ITER = 10000000` of `Circuit.calculate_current`. -/
def NR_MAX_ITER : ℕ := 10000000

/-- The running total `total_impedance = Σ element.get_impedance(ang_freq)`
accumulated over `ohmic_elements` (a left fold starting from `complex(0.0)`,
as in the source loop). -/
noncomputable def Circuit.totalImpedance (c : Circuit) (ang_freq : ℝ) : ℂ :=
  c.ohmic_elements.foldl (fun acc e => acc + e.get_impedance ang_freq) 0

/-- Newton-Raphson `value` (`f(x)`): `total_impedance * guess - voltage`
plus the `get_voltage` contribution of each non-Ohmic element. -/
noncomputable def Circuit.nrValue (c : Circuit) (ang_freq : ℝ) (voltage guess : ℂ) : ℂ :=
  c.nonohmic_elements.foldl (fun acc e => acc + e.get_voltage ang_freq guess)
    (c.totalImpedance ang_freq * guess - voltage)

/-- Newton-Raphson `gradient` (`f'(x)`) before the zero guard:
`total_impedance` plus the `get_diff_impedance` contributions. -/
noncomputable def Circuit.nrGradientRaw (c : Circuit) (ang_freq : ℝ) (guess : ℂ) : ℂ :=
  c.nonohmic_elements.foldl (fun acc e => acc + e.get_diff_impedance ang_freq guess)
    (c.totalImpedance ang_freq)

/-- The gradient actually divided by: `if gradient == 0.0: gradient += EPSILON`. -/
noncomputable def Circuit.nrGradient (c : Circuit) (ang_freq : ℝ) (guess : ℂ) : ℂ :=
  if c.nrGradientRaw ang_freq guess = 0 then
    c.nrGradientRaw ang_freq guess + (NR_EPSILON : ℂ)
  else
    c.nrGradientRaw ang_freq guess

/-- One Newton-Raphson loop body: `guess -= value/gradient` followed by
`delta = abs(value / (gradient * guess))` (note: the *updated* guess).
Both `/` are Python complex divisions and can raise `ZeroDivisionError`;
the first never does (the gradient guard, proved in `spec_C3` below),
the second does whenever `gradient * guess == 0`. -/
noncomputable def Circuit.nrStepE (c : Circuit) (ang_freq : ℝ) (voltage guess : ℂ) :
    Except String (ℂ × ℝ) :=
  match cdiv (c.nrValue ang_freq voltage guess) (c.nrGradient ang_freq guess) with
  | .error e => .error e
  | .ok upd =>
    match cdiv (c.nrValue ang_freq voltage guess)
        (c.nrGradient ang_freq guess * (guess - upd)) with
    | .error e => .error e
    | .ok q => .ok (guess - upd, Complex.abs q)

/-- The pure update `guess - value/gradient` performed by a successful step. -/
noncomputable def Circuit.nrUpdate (c : Circuit) (ang_freq : ℝ) (voltage guess : ℂ) : ℂ :=
  guess - c.nrValue ang_freq voltage guess / c.nrGradient ang_freq guess

/-- The `while (delta > EPSILON * abs(guess)) and i < MAX_ITER` loop,
embedded with `fuel = MAX_ITER - i` as the structural recursion measure.
Returns the final `guess` together with the number of iterations executed. -/
noncomputable def Circuit.nrLoop (c : Circuit) (ang_freq : ℝ) (voltage : ℂ) :
    ℕ → ℂ → ℝ → Except String (ℂ × ℕ)
  | 0, guess, _ => .ok (guess, 0)
  | fuel + 1, guess, delta =>
    if NR_EPSILON * Complex.abs guess < delta then
      match c.nrStepE ang_freq voltage guess with
      | .error e => .error e
      | .ok (guess1, delta1) =>
        match c.nrLoop ang_freq voltage fuel guess1 delta1 with
        | .error e => .error e
        | .ok (g, n) => .ok (g, n + 1)
    else
      .ok (guess, 0)

/-- `Circuit.calculate_current(ang_freq, voltage)`.

* no non-Ohmic elements: `voltage / total_impedance` (Python division,
  raising `ZeroDivisionError` when the total impedance is zero);
* otherwise Newton-Raphson from the initial guess
  `0.0 if total_impedance == 0.0 else voltage / total_impedance`
  with initial `delta = abs(guess) + 1.0`. -/
noncomputable def Circuit.calculate_current (c : Circuit) (ang_freq : ℝ) (voltage : ℂ) :
    Except String ℂ :=
  let total := c.totalImpedance ang_freq
  if c.nonohmic_elements.length = 0 then
    cdiv voltage total
  else
    let guess0 := if total = 0 then 0 else voltage / total
    (c.nrLoop ang_freq voltage NR_MAX_ITER guess0 (Complex.abs guess0 + 1)).map Prod.fst

/-! ### Helper lemmas for the Circuit embedding -/

/-- A left fold accumulating `acc + f e` equals the initial value plus the
sum of the mapped list: this is how the source's running-total loops relate
to the specification's `Σ Z_k`. -/
theorem foldl_add_map_sum {α : Type} (f : α → ℂ) (l : List α) (init : ℂ) :
    l.foldl (fun acc e => acc + f e) init = init + (l.map f).sum := by
  induction l generalizing init with
  | nil => simp
  | cons x xs ih => simp [ih, add_assoc]

theorem Circuit.ofElements_go_all_ohmic (es : List CircuitElement) :
    ∀ c : Circuit, (∀ e ∈ es, e.is_ohmic = true) →
    es.foldl
      (fun c e =>
        if e.is_ohmic then
          { c with ohmic_elements := c.ohmic_elements ++ [e] }
        else
          { c with nonohmic_elements := c.nonohmic_elements ++ [e] })
      c = ⟨c.ohmic_elements ++ es, c.nonohmic_elements⟩ := by
  induction es with
  | nil => intro c _; simp
  | cons x xs ih =>
    intro c h
    have hx : x.is_ohmic = true := h x (by simp)
    rw [List.foldl_cons, if_pos hx, ih _ (fun e he => h e (by simp [he]))]
    simp

/-- Building a `Circuit` from an all-Ohmic element list puts every element,
in order, into `ohmic_elements` and leaves `nonohmic_elements` empty. -/
theorem Circuit.ofElements_all_ohmic (es : List CircuitElement)
    (h : ∀ e ∈ es, e.is_ohmic = true) : Circuit.ofElements es = ⟨es, []⟩ := by
  unfold Circuit.ofElements
  rw [Circuit.ofElements_go_all_ohmic es ⟨[], []⟩ h]
  rfl

/-! ### Claim C1 -/

/-- `Resistor(0.0)` from `circuit/simple.py`: Ohmic, impedance constantly `0`
(`get_voltage`/`get_diff_impedance` are `pass`, never consulted for an Ohmic
element; they are embedded as the zero function). -/
noncomputable def resistorZero : CircuitElement :=
  { is_ohmic := true
    get_impedance := fun _ => 0
    get_voltage := fun _ _ => 0
    get_diff_impedance := fun _ _ => 0 }

/-- `Resistor(2.0)` from `circuit/simple.py`. -/
noncomputable def resistorTwo : CircuitElement :=
  { is_ohmic := true
    get_impedance := fun _ => 2
    get_voltage := fun _ _ => 0
    get_diff_impedance := fun _ _ => 0 }

/-- Claim C1, counterexample.  The circuit consisting of the single Ohmic
element `Resistor(0.0)` has every element Ohmic, yet `calculate_current(0, 1)`
raises `ZeroDivisionError` (Python `1 / complex(0.0)`) instead of returning
`voltage / Σ Z_k`: the claim's unconditional closed form fails when the total
impedance is zero. -/
theorem spec_C1_counterexample :
    (Circuit.ofElements [resistorZero]).calculate_current 0 1 =
      .error "ZeroDivisionError: complex division by zero" ∧
    ∀ z : ℂ, (Circuit.ofElements [resistorZero]).calculate_current 0 1 ≠ .ok z := by
  have h1 : Circuit.ofElements [resistorZero] = ⟨[resistorZero], []⟩ :=
    Circuit.ofElements_all_ohmic _ (by simp [resistorZero])
  have h2 : (Circuit.ofElements [resistorZero]).calculate_current 0 1 =
      .error "ZeroDivisionError: complex division by zero" := by
    rw [h1]
    unfold Circuit.calculate_current
    simp [Circuit.totalImpedance, resistorZero, cdiv]
  exact ⟨h2, fun z hz => by rw [h2] at hz; cases hz⟩

/-- Claim C1 (amended): for every `Circuit` all of whose elements are Ohmic
and whose total impedance `Σ Z_k` is nonzero, `calculate_current(ω, V)`
returns exactly `V / Σ Z_k`, in closed form with no Newton-Raphson iteration
(when `Σ Z_k = 0` the division raises `ZeroDivisionError` instead, see the
counterexample). -/
theorem spec_C1 (es : List CircuitElement) (h : ∀ e ∈ es, e.is_ohmic = true)
    (ang_freq : ℝ) (voltage : ℂ)
    (hz : (es.map (fun e => e.get_impedance ang_freq)).sum ≠ 0) :
    (Circuit.ofElements es).calculate_current ang_freq voltage =
      .ok (voltage / (es.map (fun e => e.get_impedance ang_freq)).sum) := by
  rw [Circuit.ofElements_all_ohmic es h]
  have htot : Circuit.totalImpedance ⟨es, []⟩ ang_freq =
      (es.map (fun e => e.get_impedance ang_freq)).sum := by
    unfold Circuit.totalImpedance
    rw [foldl_add_map_sum]
    simp
  unfold Circuit.calculate_current
  rw [htot]
  simp [cdiv, hz]

/-- Witness for C1 at the concrete circuit `[Resistor(2.0)]`, `ω = 0`,
`V = 6`. -/
theorem spec_C1_witness :
    (∀ e ∈ [resistorTwo], e.is_ohmic = true) ∧
    (List.map (fun e => e.get_impedance 0) [resistorTwo]).sum ≠ 0 ∧
    (Circuit.ofElements [resistorTwo]).calculate_current 0 6 =
      .ok (6 / (List.map (fun e => e.get_impedance 0) [resistorTwo]).sum) := by
  refine ⟨by simp [resistorTwo], by simp [resistorTwo], ?_⟩
  exact spec_C1 [resistorTwo] (by simp [resistorTwo]) 0 6 (by simp [resistorTwo])

/-! ### Claim C3 -/

/-- The gradient guard: a raw gradient of exactly zero is bumped to
`EPSILON`. -/
theorem Circuit.nrGradient_of_raw_zero (c : Circuit) (ang_freq : ℝ) (g : ℂ)
    (h : c.nrGradientRaw ang_freq g = 0) :
    c.nrGradient ang_freq g = (NR_EPSILON : ℂ) := by
  unfold Circuit.nrGradient
  rw [if_pos h, h, zero_add]

/-- The gradient actually used in the Newton update is never zero. -/
theorem Circuit.nrGradient_ne_zero (c : Circuit) (ang_freq : ℝ) (g : ℂ) :
    c.nrGradient ang_freq g ≠ 0 := by
  unfold Circuit.nrGradient
  by_cases h : c.nrGradientRaw ang_freq g = 0
  · rw [if_pos h, h, zero_add]
    exact Complex.ofReal_ne_zero.mpr (by norm_num [NR_EPSILON])
  · rw [if_neg h]
    exact h

/-- A successful Newton step performs exactly the update
`guess - value/gradient`. -/
theorem Circuit.nrStepE_ok_fst (c : Circuit) (ang_freq : ℝ) (voltage g g1 : ℂ)
    (d1 : ℝ) (h : c.nrStepE ang_freq voltage g = .ok (g1, d1)) :
    g1 = c.nrUpdate ang_freq voltage g := by
  unfold Circuit.nrStepE at h
  split at h
  · exact Except.noConfusion h
  · rename_i upd hupd
    split at h
    · exact Except.noConfusion h
    · rename_i q hq
      injection h with h
      injection h with h1 _
      rw [cdiv_ok _ _ (c.nrGradient_ne_zero ang_freq g)] at hupd
      injection hupd with hupd
      rw [← h1, ← hupd]
      rfl

/-- When `nrLoop` returns successfully, the iteration count is at most the
fuel and the returned guess is that count of pure Newton updates applied to
the initial guess. -/
theorem Circuit.nrLoop_ok (c : Circuit) (ang_freq : ℝ) (voltage : ℂ) :
    ∀ (fuel : ℕ) (g : ℂ) (d : ℝ) (res : ℂ) (n : ℕ),
      c.nrLoop ang_freq voltage fuel g d = .ok (res, n) →
      n ≤ fuel ∧ res = (fun x => c.nrUpdate ang_freq voltage x)^[n] g := by
  intro fuel
  induction fuel with
  | zero =>
    intro g d res n h
    unfold Circuit.nrLoop at h
    injection h with h
    injection h with h1 h2
    subst h1
    subst h2
    exact ⟨Nat.le_refl 0, rfl⟩
  | succ fuel ih =>
    intro g d res n h
    unfold Circuit.nrLoop at h
    split at h
    · split at h
      · exact Except.noConfusion h
      · rename_i g1 d1 hs
        split at h
        · exact Except.noConfusion h
        · rename_i g2 m hl
          injection h with h
          injection h with h1 h2
          subst h1
          subst h2
          obtain ⟨hm, hg⟩ := ih g1 d1 g2 m hl
          refine ⟨Nat.succ_le_succ hm, ?_⟩
          rw [hg, c.nrStepE_ok_fst ang_freq voltage g g1 d1 hs,
            ← Function.iterate_succ_apply]
    · injection h with h
      injection h with h1 h2
      subst h1
      subst h2
      exact ⟨Nat.zero_le _, rfl⟩

/-- Claim C3 (amended): for every circuit with at least one non-Ohmic
element, `calculate_current` runs at most `10^7` Newton-Raphson iterations;
a zero raw gradient is replaced by `EPSILON = 1e-4`, so the gradient divided
by is never zero and the Newton update itself never divides by zero; the
function either returns the guess reached after its (at most `10^7`)
iterations, or raises `ZeroDivisionError` from the relative-change
computation `abs(value / (gradient * guess))` when the updated guess makes
`gradient * guess` exactly zero (see the counterexample): it has no
non-convergence exception. -/
theorem spec_C3 (c : Circuit) (ang_freq : ℝ) (voltage : ℂ)
    (h : c.nonohmic_elements ≠ []) :
    (∀ g, c.nrGradientRaw ang_freq g = 0 →
        c.nrGradient ang_freq g = (NR_EPSILON : ℂ)) ∧
    (∀ g, c.nrGradient ang_freq g ≠ 0) ∧
    ((∃ e, c.calculate_current ang_freq voltage = .error e) ∨
      ∃ n ≤ NR_MAX_ITER, c.calculate_current ang_freq voltage =
        .ok ((fun x => c.nrUpdate ang_freq voltage x)^[n]
          (if c.totalImpedance ang_freq = 0 then 0
           else voltage / c.totalImpedance ang_freq))) := by
  refine ⟨fun g => c.nrGradient_of_raw_zero ang_freq g,
    fun g => c.nrGradient_ne_zero ang_freq g, ?_⟩
  have hcc : c.calculate_current ang_freq voltage =
      Except.map Prod.fst (c.nrLoop ang_freq voltage NR_MAX_ITER
        (if c.totalImpedance ang_freq = 0 then 0
         else voltage / c.totalImpedance ang_freq)
        (Complex.abs
          (if c.totalImpedance ang_freq = 0 then 0
           else voltage / c.totalImpedance ang_freq) + 1)) := by
    unfold Circuit.calculate_current
    rw [if_neg (List.length_pos.mpr h).ne']
  rw [hcc]
  cases hl : c.nrLoop ang_freq voltage NR_MAX_ITER
      (if c.totalImpedance ang_freq = 0 then 0
       else voltage / c.totalImpedance ang_freq)
      (Complex.abs
        (if c.totalImpedance ang_freq = 0 then 0
         else voltage / c.totalImpedance ang_freq) + 1) with
  | error e => exact Or.inl ⟨e, rfl⟩
  | ok p =>
    obtain ⟨g, n⟩ := p
    obtain ⟨hn, hg⟩ := c.nrLoop_ok ang_freq voltage NR_MAX_ITER _ _ g n hl
    exact Or.inr ⟨n, hn, by rw [hg]; rfl⟩

/-- A non-Ohmic element whose voltage-current curve and differential
impedance are identically zero (the simplest conceivable non-Ohmic
`CircuitElement` implementation). -/
noncomputable def nonohmicNull : CircuitElement :=
  { is_ohmic := false
    get_impedance := fun _ => 0
    get_voltage := fun _ _ => 0
    get_diff_impedance := fun _ _ => 0 }

/-- If the loop condition holds and the step raises, the whole loop
raises. -/
theorem Circuit.nrLoop_error_of_step (c : Circuit) (ang_freq : ℝ)
    (voltage : ℂ) (fuel : ℕ) (g : ℂ) (d : ℝ) (e : String)
    (hcond : NR_EPSILON * Complex.abs g < d)
    (hstep : c.nrStepE ang_freq voltage g = .error e) :
    c.nrLoop ang_freq voltage (fuel + 1) g d = .error e := by
  unfold Circuit.nrLoop
  rw [if_pos hcond, hstep]

/-- Claim C3, counterexample.  The circuit with the single non-Ohmic element
`nonohmicNull`, driven with `ω = 0, V = 0`: the first Newton iteration
computes `value = 0`, raw gradient `0` (bumped to `EPSILON`), updated guess
`0`, and then `delta = abs(value / (gradient * guess)) = abs(0 / 0)` raises
`ZeroDivisionError` — `calculate_current` does not return the guess it
reached. -/
theorem spec_C3_counterexample :
    (Circuit.ofElements [nonohmicNull]).calculate_current 0 0 =
      .error "ZeroDivisionError: complex division by zero" := by
  have h1 : Circuit.ofElements [nonohmicNull] =
      ⟨[], [nonohmicNull]⟩ := by
    unfold Circuit.ofElements
    simp [nonohmicNull]
  rw [h1]
  have hne : ((NR_EPSILON : ℝ) : ℂ) ≠ 0 :=
    Complex.ofReal_ne_zero.mpr (by norm_num [NR_EPSILON])
  have htot : Circuit.totalImpedance ⟨[], [nonohmicNull]⟩ 0 = 0 := rfl
  have hval : Circuit.nrValue ⟨[], [nonohmicNull]⟩ 0 0 0 = 0 := by
    unfold Circuit.nrValue
    rw [htot]
    simp [nonohmicNull]
  have hraw : Circuit.nrGradientRaw ⟨[], [nonohmicNull]⟩ 0 0 = 0 := by
    unfold Circuit.nrGradientRaw
    rw [htot]
    simp [nonohmicNull]
  have hgrad : Circuit.nrGradient ⟨[], [nonohmicNull]⟩ 0 0 = (NR_EPSILON : ℂ) :=
    Circuit.nrGradient_of_raw_zero _ 0 0 hraw
  have hstep : Circuit.nrStepE ⟨[], [nonohmicNull]⟩ 0 0 0 =
      .error "ZeroDivisionError: complex division by zero" := by
    unfold Circuit.nrStepE
    rw [hval, hgrad, cdiv_ok _ _ hne]
    dsimp only
    rw [show (NR_EPSILON : ℂ) * ((0 : ℂ) - 0 / (NR_EPSILON : ℂ)) = 0 by ring]
    rw [cdiv_zero_right]
  have hcc : Circuit.calculate_current ⟨[], [nonohmicNull]⟩ 0 0 =
      Except.map Prod.fst (Circuit.nrLoop ⟨[], [nonohmicNull]⟩ 0 0 NR_MAX_ITER 0
        (Complex.abs 0 + 1)) := by
    unfold Circuit.calculate_current
    rw [if_neg (by simp), htot, if_pos rfl]
  rw [hcc]
  rw [show NR_MAX_ITER = 9999999 + 1 by norm_num [NR_MAX_ITER]]
  rw [Circuit.nrLoop_error_of_step ⟨[], [nonohmicNull]⟩ 0 0 9999999 0
    (Complex.abs 0 + 1) "ZeroDivisionError: complex division by zero"
    (by simp [NR_EPSILON]) hstep]
  rfl

/-- Witness for C3 at the concrete one-element non-Ohmic circuit,
`ω = 0`, `V = 1`. -/
theorem spec_C3_witness :
    (Circuit.mk [] [nonohmicNull]).nonohmic_elements ≠ [] ∧
    ((∀ g, (Circuit.mk [] [nonohmicNull]).nrGradientRaw 0 g = 0 →
        (Circuit.mk [] [nonohmicNull]).nrGradient 0 g = (NR_EPSILON : ℂ)) ∧
      (∀ g, (Circuit.mk [] [nonohmicNull]).nrGradient 0 g ≠ 0) ∧
      ((∃ e, (Circuit.mk [] [nonohmicNull]).calculate_current 0 1 = .error e) ∨
        ∃ n ≤ NR_MAX_ITER, (Circuit.mk [] [nonohmicNull]).calculate_current 0 1 =
          .ok ((fun x => (Circuit.mk [] [nonohmicNull]).nrUpdate 0 1 x)^[n]
            (if (Circuit.mk [] [nonohmicNull]).totalImpedance 0 = 0 then 0
             else 1 / (Circuit.mk [] [nonohmicNull]).totalImpedance 0)))) :=
  ⟨by simp, spec_C3 (Circuit.mk [] [nonohmicNull]) 0 1 (by simp)⟩

/-! ## Material (`suscep_calc/material.py`), numeric level

The `Material` object stores its properties as string key-value sections in
a `ConfigParser`; the retrieval methods (`magnetic_susceptibility()`,
`electrical_susceptibility()`, the Jiles-Atherton parameter getters) parse
the stored strings into floats.  This numeric-level embedding represents a
constructed `Material` by the parsed values those getters return, together
with the stored (already normalised) `type` strings that the capability
probes `is_dielectric()` / `is_magnetically_linear()` compare against.
The string-level constructor `Material.__init__` is embedded separately
below for claim C8. -/

/-- The five Jiles-Atherton parameters of one response axis
(`alpha`, `a`, `psat`/`msat`, `k`, `c`). -/
structure JAParams where
  alpha : ℝ
  a : ℝ
  sat : ℝ
  k : ℝ
  c : ℝ

/-- A constructed `Material`, at the level of its parsed property values. -/
structure Material where
  ohmic : Bool
  conductivity : ℝ
  electrical_type : String
  electrical_susceptibility : ℝ
  electrical_ja : JAParams
  magnetic_type : String
  magnetic_susceptibility : ℝ
  magnetic_ja : JAParams

/-- `Material.is_ohmic()`. -/
def Material.is_ohmic (m : Material) : Bool := m.ohmic

/-- `Material.is_dielectric()`: the stored electrical type string,
casefolded, equals `'dielectric'`. -/
def Material.is_dielectric (m : Material) : Bool :=
  pyCasefold m.electrical_type = "dielectric"

/-- `Material.is_magnetically_linear()`: the stored magnetic type string,
casefolded, is `'diamagnetic'` or `'paramagnetic'`. -/
def Material.is_magnetically_linear (m : Material) : Bool :=
  pyCasefold m.magnetic_type = "diamagnetic" ||
    pyCasefold m.magnetic_type = "paramagnetic"

/-- `input_frequencies = [phasor[1] for phasor in phasors if phasor[1] > 0.0]`
(the positive angular frequencies of the input components, in order). -/
noncomputable def inputFrequencies (phasors : List (ℂ × ℝ)) : List ℝ :=
  ((phasors.map Prod.snd).filter fun w => decide (0 < w))

/-- The quantity the source calls `mean_period`: the product of the input
(angular) frequencies raised to `1/n_inputs` (`np.float_power`), i.e. the
geometric mean of the angular frequencies — *not* of the periods. -/
noncomputable def meanPeriod (freqs : List ℝ) : ℝ :=
  (freqs.foldl (fun acc w => acc * w) 1) ^ ((1 : ℝ) / (freqs.length : ℝ))

/-- The time step `DT = mean_period / np.sqrt(N_time)` chosen by the
nonlinear branch of `calculate_B_field_from_H_field` and
`calculate_D_field_from_E_field`. -/
noncomputable def timeStepDT (freqs : List ℝ) (N_time : ℕ) : ℝ :=
  meanPeriod freqs / Real.sqrt (N_time : ℝ)

/-- The nonlinear (ferromagnetic) branch of `calculate_B_field_from_H_field`
for a `list`-typed input, which is the declared parameter type
(`H_field_phasors: list[tuple[complex, float]]`).

* With no positive input frequency the harmonic-enumeration `while` loop
  either runs `index[0] = index[0] + 1` on the empty `index` list
  (`IndexError`, whenever more target frequencies are needed, i.e.
  `N_time > 1`) or, if no loop pass is needed, the mean-period exponent
  `1.0/n_inputs` divides by zero (`ZeroDivisionError`).
* Otherwise the enumeration terminates, `mean_period` and `DT` are computed
  (lines 411-419), and the very next statement
  `is_vector(H_field_phasors[0, 0])` indexes the input *list* with a tuple,
  raising `TypeError` (line 423). -/
noncomputable def Material.nonlinearBranchB (_m : Material)
    (phasors : List (ℂ × ℝ)) (N_time : ℕ) : Except String (List (ℂ × ℝ)) :=
  let freqs := inputFrequencies phasors
  if freqs.length = 0 then
    if 1 < N_time then .error "IndexError: list index out of range"
    else .error "ZeroDivisionError: division by zero"
  else
    let _mp := meanPeriod freqs
    let _DT := timeStepDT freqs N_time
    .error "TypeError: list indices must be integers or slices, not tuple"

/-- The nonlinear (ferroelectric) branch of `calculate_D_field_from_E_field`,
structurally identical to `Material.nonlinearBranchB` (see there). -/
noncomputable def Material.nonlinearBranchD (_m : Material)
    (phasors : List (ℂ × ℝ)) (N_time : ℕ) : Except String (List (ℂ × ℝ)) :=
  let freqs := inputFrequencies phasors
  if freqs.length = 0 then
    if 1 < N_time then .error "IndexError: list index out of range"
    else .error "ZeroDivisionError: division by zero"
  else
    let _mp := meanPeriod freqs
    let _DT := timeStepDT freqs N_time
    .error "TypeError: list indices must be integers or slices, not tuple"

/-- `Material.calculate_B_field_from_H_field(H_field_phasors, N_time)`:
rejects `N_time < len(input) + 1`; for a magnetically linear material maps
each phasor to `μ₀(1+χ)·H` with its frequency unchanged; otherwise runs the
Jiles-Atherton machinery (nonlinear branch). -/
noncomputable def Material.calculate_B_field_from_H_field (m : Material)
    (H_field_phasors : List (ℂ × ℝ)) (N_time : ℕ) :
    Except String (List (ℂ × ℝ)) :=
  if N_time < H_field_phasors.length + 1 then
    .error "ValueError: N_time must be at least one greater than the number of input components!"
  else if m.is_magnetically_linear then
    .ok (H_field_phasors.map fun p =>
      (((VACUUM_PERMEABILITY_SI * (1 + m.magnetic_susceptibility) : ℝ) : ℂ) * p.1, p.2))
  else
    m.nonlinearBranchB H_field_phasors N_time

/-- `Material.calculate_D_field_from_E_field(E_field_phasors, N_time)`:
same structure with `ε₀(1+χ)` and `is_dielectric()`. -/
noncomputable def Material.calculate_D_field_from_E_field (m : Material)
    (E_field_phasors : List (ℂ × ℝ)) (N_time : ℕ) :
    Except String (List (ℂ × ℝ)) :=
  if N_time < E_field_phasors.length + 1 then
    .error "ValueError: N_time must be at least one greater than the number of input components!"
  else if m.is_dielectric then
    .ok (E_field_phasors.map fun p =>
      (((VACUUM_PERMITTIVITY_SI * (1 + m.electrical_susceptibility) : ℝ) : ℂ) * p.1, p.2))
  else
    m.nonlinearBranchD E_field_phasors N_time

/-! ### Claim C2 -/

/-- Claim C2: for a magnetically linear `Material` (type `'diamagnetic'` or
`'paramagnetic'`, susceptibility `χ`) and any input list with
`N_time ≥ len(input) + 1`, `calculate_B_field_from_H_field` returns exactly
`[(μ₀(1+χ)·H_n, ω_n)]` in input order, with none of the harmonic-enumeration
or time-domain Jiles-Atherton machinery involved. -/
theorem spec_C2 (m : Material) (phasors : List (ℂ × ℝ)) (N_time : ℕ)
    (hkind : m.magnetic_type = "diamagnetic" ∨ m.magnetic_type = "paramagnetic")
    (hN : phasors.length + 1 ≤ N_time) :
    m.calculate_B_field_from_H_field phasors N_time =
      .ok (phasors.map fun p =>
        (((VACUUM_PERMEABILITY_SI * (1 + m.magnetic_susceptibility) : ℝ) : ℂ) * p.1,
          p.2)) := by
  have hlin : m.is_magnetically_linear = true := by
    unfold Material.is_magnetically_linear
    rcases hkind with hk | hk <;> rw [hk] <;> decide
  unfold Material.calculate_B_field_from_H_field
  rw [if_neg (by omega), hlin]
  rfl

/-- A concrete diamagnetic material with `χ_m = -6.4e-6` (the spec's copper
example); the Jiles-Atherton parameters are never consulted on the linear
path. -/
noncomputable def copperLike : Material :=
  { ohmic := true
    conductivity := 5.96e7
    electrical_type := "dielectric"
    electrical_susceptibility := 0
    electrical_ja := ⟨0, 1, 0, 1, 1⟩
    magnetic_type := "diamagnetic"
    magnetic_susceptibility := -6.4e-6
    magnetic_ja := ⟨0, 1, 0, 1, 1⟩ }

/-- Witness for C2: the copper-like material, one input phasor `(2, 5)` and
`N_time = 3`. -/
theorem spec_C2_witness :
    (copperLike.magnetic_type = "diamagnetic" ∨
      copperLike.magnetic_type = "paramagnetic") ∧
    ([((2 : ℂ), (5 : ℝ))].length + 1 ≤ 3) ∧
    copperLike.calculate_B_field_from_H_field [((2 : ℂ), (5 : ℝ))] 3 =
      .ok ([((2 : ℂ), (5 : ℝ))].map fun p =>
        (((VACUUM_PERMEABILITY_SI *
            (1 + copperLike.magnetic_susceptibility) : ℝ) : ℂ) * p.1, p.2)) :=
  ⟨Or.inl rfl, by norm_num,
    spec_C2 copperLike [((2 : ℂ), (5 : ℝ))] 3 (Or.inl rfl) (by norm_num)⟩

/-! ### Claim C7 -/

/-- Modelled from the spec: "the geometric mean period of the inputs", the
geometric mean of the periods `2π/ωᵢ` of the positive-frequency input
components (this is what the claim — and the source's own comment at lines
411-418 — say `√(Δt · N_time·Δt)` should equal). -/
noncomputable def specGeomMeanPeriod (freqs : List ℝ) : ℝ :=
  (freqs.foldl (fun acc w => acc * (2 * Real.pi / w)) 1) ^
    ((1 : ℝ) / (freqs.length : ℝ))

/-- Claim C7, evaluation at the failing input (one input component of
angular frequency `ω = 8`, `N_time = 4`): the code's `DT` is
`geomean(ω)/√N_time = 4`, so `√(DT · N_time·DT) = 8` is the geometric mean
of the angular *frequencies*; the geometric mean of the *periods* is
`2π/8 = π/4 ≠ 8`.  The code computes `mean_period` as the product of the
angular frequencies to the power `1/n` (lines 411-415), contradicting its
own comment and the claim. -/
theorem spec_C7_failing_input :
    inputFrequencies [((1 : ℂ), (8 : ℝ))] = [8] ∧
    timeStepDT [8] 4 = 4 ∧
    Real.sqrt (timeStepDT [8] 4 * ((4 : ℝ) * timeStepDT [8] 4)) = 8 ∧
    specGeomMeanPeriod [8] = Real.pi / 4 ∧
    Real.sqrt (timeStepDT [8] 4 * ((4 : ℝ) * timeStepDT [8] 4)) ≠
      specGeomMeanPeriod [8] := by
  have hfr : inputFrequencies [((1 : ℂ), (8 : ℝ))] = [8] := by
    unfold inputFrequencies
    simp
  have hmp : meanPeriod [8] = 8 := by
    unfold meanPeriod
    simp
  have hdt : timeStepDT [8] 4 = 4 := by
    unfold timeStepDT
    rw [hmp]
    rw [show ((4 : ℕ) : ℝ) = 2 ^ 2 by norm_num,
      Real.sqrt_sq (by norm_num : (0 : ℝ) ≤ 2)]
    norm_num
  have hsq : Real.sqrt ((4 : ℝ) * ((4 : ℝ) * 4)) = 8 := by
    rw [show (4 : ℝ) * ((4 : ℝ) * 4) = 8 ^ 2 by norm_num,
      Real.sqrt_sq (by norm_num : (0 : ℝ) ≤ 8)]
  have hgm : specGeomMeanPeriod [8] = Real.pi / 4 := by
    unfold specGeomMeanPeriod
    simp
    ring
  refine ⟨hfr, hdt, by rw [hdt]; exact hsq, hgm, ?_⟩
  rw [hdt, hgm, hsq]
  intro hcontra
  have hpi : Real.pi < 3.15 := Real.pi_lt_d2
  linarith

/-! ## Material (`suscep_calc/material.py`), string level: `__init__`

`Material.__init__(init)` receives an optional mapping for each of the four
sections `misc`, `conductivity`, `electrical`, `magnetic` (a section of the
wrong runtime type is skipped exactly like an absent one) and normalises
them into the stored `ConfigParser`.  Sections are embedded as association
lists of key-value strings with `ConfigParser`'s case-insensitive option
lookup.  The external `json.loads`/`np.array` parsing of a non-Ohmic
response curve is abstracted as an `Except`-valued parameter `jsonParse`,
since it belongs to the Python standard library, not to this repository. -/

/-- The optional sections handed to `Material.__init__`. -/
structure MaterialInit where
  misc : Option (List (String × String))
  conductivity : Option (List (String × String))
  electrical : Option (List (String × String))
  magnetic : Option (List (String × String))

/-- The normalised property sections stored by a constructed `Material`
(plus the `conductivity_curve` array set on the non-Ohmic path). -/
structure MaterialProps where
  misc : List (String × String)
  conductivity : List (String × String)
  electrical : List (String × String)
  magnetic : List (String × String)
  conductivity_curve : Option (List (List ℝ))

/-- `ConfigParser` option lookup: case-insensitive on the key. -/
def lookupOpt (s : List (String × String)) (k : String) : Option String :=
  (s.find? fun kv => pyCasefold kv.1 == pyCasefold k).map Prod.snd

/-- In-place update of an option's value (key compared case-insensitively),
as in `self.properties['electrical']['type'] = 'dielectric'`. -/
def setOpt (s : List (String × String)) (k v : String) :
    List (String × String) :=
  s.map fun kv => if pyCasefold kv.1 = pyCasefold k then (kv.1, v) else kv

/-- `ConfigParser.getboolean` value conversion (`BOOLEAN_STATES`): accepts
`1/yes/true/on` and `0/no/false/off` case-insensitively, raises `ValueError`
otherwise. -/
def parseConfigBool (s : String) : Except String Bool :=
  if pyCasefold s = "1" ∨ pyCasefold s = "yes" ∨ pyCasefold s = "true" ∨
      pyCasefold s = "on" then
    .ok true
  else if pyCasefold s = "0" ∨ pyCasefold s = "no" ∨ pyCasefold s = "false" ∨
      pyCasefold s = "off" then
    .ok false
  else
    .error "ValueError: Not a boolean"

/-- The `misc` section processing: fill in default `name`/`desc` when
missing (never raises). -/
def miscStep (misc0 : List (String × String)) : List (String × String) :=
  let m1 := if (lookupOpt misc0 "name").isSome then misc0
            else misc0 ++ [("name", "Vacuum")]
  if (lookupOpt m1 "desc").isSome then m1
  else m1 ++ [("desc", "Classical vaccum")]

/-- The `conductivity` section processing: absent `ohmic` replaces the whole
section with the Ohmic vacuum default; otherwise `getboolean` parses
`ohmic` (possibly raising `ValueError`); Ohmic materials get a default
`conductivity` when missing; non-Ohmic materials get `conductivity_curve`
from the default array or from `json.loads` of the `curve` value. -/
def condStep (jsonParse : String → Except String (List (List ℝ)))
    (cond0 : List (String × String)) :
    Except String (List (String × String) × Option (List (List ℝ))) :=
  match lookupOpt cond0 "ohmic" with
  | none => .ok ([("ohmic", "True"), ("conductivity", "0.0")], none)
  | some ov =>
    match parseConfigBool ov with
    | .error e => .error e
    | .ok true =>
      .ok ((match lookupOpt cond0 "conductivity" with
            | none => cond0 ++ [("conductivity", "0.0")]
            | some _ => cond0), none)
    | .ok false =>
      match lookupOpt cond0 "curve" with
      | none => .ok (cond0, some [[0, 1], [0, 0]])
      | some cv =>
        match jsonParse cv with
        | .error e => .error e
        | .ok arr => .ok (cond0, some arr)

/-- The `electrical` section processing: absent `type` yields the dielectric
vacuum default; `dielectric`/`ferroelectric` (casefolded) are normalised;
anything else raises `RuntimeError`. -/
def elecStep (elec0 : List (String × String)) :
    Except String (List (String × String)) :=
  match lookupOpt elec0 "type" with
  | none => .ok [("type", "dielectric"), ("susceptibility", "0.0")]
  | some tv =>
    if pyCasefold tv = "dielectric" then
      .ok (setOpt elec0 "type" "dielectric")
    else if pyCasefold tv = "ferroelectric" then
      .ok (setOpt elec0 "type" "ferroelectric")
    else
      .error "RuntimeError: Unrecognized material type"

/-- The `magnetic` section processing: absent `type` yields the diamagnetic
vacuum default; `diamagnetic`/`paramagnetic` normalise to `diamagnetic`,
`ferromagnetic`/`ferrimagnetic`/`antiferromagnetic` to `ferromagnetic`;
anything else raises `RuntimeError`. -/
def magStep (mag0 : List (String × String)) :
    Except String (List (String × String)) :=
  match lookupOpt mag0 "type" with
  | none => .ok [("type", "diamagnetic"), ("susceptibility", "0.0")]
  | some tv =>
    if pyCasefold tv = "diamagnetic" ∨ pyCasefold tv = "paramagnetic" then
      .ok (setOpt mag0 "type" "diamagnetic")
    else if pyCasefold tv = "ferromagnetic" ∨ pyCasefold tv = "ferrimagnetic" ∨
        pyCasefold tv = "antiferromagnetic" then
      .ok (setOpt mag0 "type" "ferromagnetic")
    else
      .error "RuntimeError: Unrecognized material type"

/-- `Material.__init__`: processes the sections in source order
(`misc`, `conductivity`, `electrical`, `magnetic`).  `miscStep` never raises
and its result is independent of the other sections, so it is recorded in
the final result; the fallible section steps are sequenced in the order in
which the source can raise. -/
def materialInit (jsonParse : String → Except String (List (List ℝ)))
    (init : MaterialInit) : Except String MaterialProps :=
  match condStep jsonParse (init.conductivity.getD []) with
  | .error e => .error e
  | .ok (cond, curve) =>
    match elecStep (init.electrical.getD []) with
    | .error e => .error e
    | .ok elec =>
      match magStep (init.magnetic.getD []) with
      | .error e => .error e
      | .ok mag =>
        .ok { misc := miscStep (init.misc.getD [])
              conductivity := cond
              electrical := elec
              magnetic := mag
              conductivity_curve := curve }

/-- The properties of the default (vacuum) material: what `Material({})`
constructs. -/
def vacuumProps : MaterialProps :=
  { misc := [("name", "Vacuum"), ("desc", "Classical vaccum")]
    conductivity := [("ohmic", "True"), ("conductivity", "0.0")]
    electrical := [("type", "dielectric"), ("susceptibility", "0.0")]
    magnetic := [("type", "diamagnetic"), ("susceptibility", "0.0")]
    conductivity_curve := none }

/-- A stand-in for the external JSON curve parser; never consulted by the
inputs used in the C8 theorems. -/
def jsonParseStub : String → Except String (List (List ℝ)) :=
  fun _ => .error "jsonParse unused"

/-- The empty properties mapping: every section (hence every compulsory
field `name`, `desc`, `ohmic`, `electrical.type`, `magnetic.type`) is
missing. -/
def emptyMaterialInit : MaterialInit := ⟨none, none, none, none⟩

/-- An init whose `electrical` section carries an unrecognized `type`. -/
def badElecInit : MaterialInit := ⟨none, none, some [("type", "plasma")], none⟩

/-- An init whose `magnetic` section carries an unrecognized `type`. -/
def badMagInit : MaterialInit := ⟨none, none, none, some [("type", "unobtainium")]⟩

/-- Claim C8, counterexample.  The empty properties mapping is missing every
compulsory field, yet `Material.__init__` silently succeeds, filling in the
vacuum defaults — construction does not abort. -/
theorem spec_C8_counterexample :
    emptyMaterialInit.misc = none ∧ emptyMaterialInit.conductivity = none ∧
    emptyMaterialInit.electrical = none ∧ emptyMaterialInit.magnetic = none ∧
    materialInit jsonParseStub emptyMaterialInit = .ok vacuumProps :=
  ⟨rfl, rfl, rfl, rfl, rfl⟩

/-- Claim C8 (amended): constructing a `Material` raises whenever the
`electrical` or `magnetic` section carries a `type` string outside the
recognized set; but a mapping missing compulsory fields does *not* abort —
each missing field is silently given its vacuum default (in particular the
empty mapping constructs the default material). -/
theorem spec_C8 (jsonParse : String → Except String (List (List ℝ)))
    (init : MaterialInit) :
    (∀ s t, init.electrical = some s → lookupOpt s "type" = some t →
      pyCasefold t ≠ "dielectric" → pyCasefold t ≠ "ferroelectric" →
      ∃ e, materialInit jsonParse init = .error e) ∧
    (∀ s t, init.magnetic = some s → lookupOpt s "type" = some t →
      pyCasefold t ≠ "diamagnetic" → pyCasefold t ≠ "paramagnetic" →
      pyCasefold t ≠ "ferromagnetic" → pyCasefold t ≠ "ferrimagnetic" →
      pyCasefold t ≠ "antiferromagnetic" →
      ∃ e, materialInit jsonParse init = .error e) ∧
    (init.misc = none → init.conductivity = none → init.electrical = none →
      init.magnetic = none →
      materialInit jsonParse init = .ok vacuumProps) := by
  refine ⟨?_, ?_, ?_⟩
  · intro s t hsec htyp h1 h2
    have he : elecStep s = .error "RuntimeError: Unrecognized material type" := by
      unfold elecStep
      rw [htyp]
      dsimp only
      rw [if_neg h1, if_neg h2]
    cases hc : condStep jsonParse (init.conductivity.getD []) with
    | error e => exact ⟨e, by unfold materialInit; rw [hc]⟩
    | ok p =>
      obtain ⟨cond, curve⟩ := p
      refine ⟨"RuntimeError: Unrecognized material type", ?_⟩
      unfold materialInit
      rw [hc]
      dsimp only
      rw [hsec]
      dsimp only [Option.getD]
      rw [he]
  · intro s t hsec htyp h1 h2 h3 h4 h5
    have hm : magStep s = .error "RuntimeError: Unrecognized material type" := by
      unfold magStep
      rw [htyp]
      dsimp only
      rw [if_neg (by tauto), if_neg (by tauto)]
    cases hc : condStep jsonParse (init.conductivity.getD []) with
    | error e => exact ⟨e, by unfold materialInit; rw [hc]⟩
    | ok p =>
      obtain ⟨cond, curve⟩ := p
      cases hee : elecStep (init.electrical.getD []) with
      | error e =>
        exact ⟨e, by unfold materialInit; rw [hc]; dsimp only; rw [hee]⟩
      | ok elec =>
        refine ⟨"RuntimeError: Unrecognized material type", ?_⟩
        unfold materialInit
        rw [hc]
        dsimp only
        rw [hee]
        dsimp only
        rw [hsec]
        dsimp only [Option.getD]
        rw [hm]
  · intro hm hcnd hel hmg
    rw [show init = emptyMaterialInit by
      cases init
      simp_all [emptyMaterialInit]]
    rfl

/-- Witness for C8's theorem at the three concrete mappings `badElecInit`,
`badMagInit` and `emptyMaterialInit`. -/
theorem spec_C8_witness :
    (∃ e, materialInit jsonParseStub badElecInit = .error e) ∧
    (∃ e, materialInit jsonParseStub badMagInit = .error e) ∧
    materialInit jsonParseStub emptyMaterialInit = .ok vacuumProps :=
  ⟨(spec_C8 jsonParseStub badElecInit).1 [("type", "plasma")] "plasma"
      rfl rfl (by decide) (by decide),
    (spec_C8 jsonParseStub badMagInit).2.1 [("type", "unobtainium")] "unobtainium"
      rfl rfl (by decide) (by decide) (by decide) (by decide) (by decide),
    (spec_C8 jsonParseStub emptyMaterialInit).2.2 rfl rfl rfl rfl⟩

/-! ## VectorField (`suscep_calc/field/vector_field.py`)

A `VectorField` stores sample positions (`points`, an `(N,3)` float array),
aligned complex value rows (`values`, an `(N,d)` array) and a lazily built
`scipy.interpolate.LinearNDInterpolator`.  The aligned arrays are embedded
as a list of (position, value-row) pairs; the cached interpolator is
embedded as the snapshot of the data it was built from (its behaviour is a
pure function of that data).  scipy's interpolator itself is an external
collaborator: it is abstracted as a function `Interp` from data and query
position to an optional value row, `none` standing for a NaN row (the
documented behaviour outside the convex hull of the data positions). -/

/-- A position in `R³`. -/
abbrev Pt : Type := Fin 3 → ℝ

/-- A value row (`d` complex components). -/
abbrev VRow : Type := List ℂ

/-- Aligned data rows of a `VectorField`. -/
abbrev VFData : Type := List (Pt × VRow)

/-- The interface of `LinearNDInterpolator`: from data rows, a map from a
query position to its interpolated value row, `none` for NaN. -/
abbrev Interp : Type := VFData → Pt → Option VRow

/-- The set of stored positions of a data list. -/
def ptSet (rows : VFData) : Set Pt := {p | p ∈ rows.map Prod.fst}

structure VectorField where
  data : Option VFData
  interp : Option VFData
  ndims : Option ℕ

/-- The stored positions (`self.points`; empty when uninitialized). -/
def VectorField.pointsList (vf : VectorField) : List Pt :=
  (vf.data.getD []).map Prod.fst

/-! ### `np.unique(..., return_index=True, axis=0)`

numpy returns the lexicographically sorted unique rows together with the
index of the *first* occurrence of each in the original array; the aligned
`values = values[indices]` therefore keeps, for every retained position, the
value row of its first occurrence.  This is embedded as first-occurrence
deduplication followed by a lexicographic merge sort on the position. -/

/-- Keep the first occurrence of each position (with its value row). -/
noncomputable def dedupKeepFirst : VFData → VFData
  | [] => []
  | x :: xs => x :: dedupKeepFirst (xs.filter fun y => decide (y.1 ≠ x.1))
termination_by l => l.length
decreasing_by simpa using Nat.lt_succ_of_le (List.length_filter_le _ _)

/-- Lexicographic comparison of positions (numpy's row sort order). -/
noncomputable def ptLeB (p q : Pt) : Bool :=
  decide (p 0 < q 0 ∨ (p 0 = q 0 ∧ (p 1 < q 1 ∨ (p 1 = q 1 ∧ p 2 ≤ q 2))))

/-- `np.unique(points ++ new_points, return_index=True, axis=0)` applied to
aligned rows. -/
noncomputable def npUniqueRows (rows : VFData) : VFData :=
  (dedupKeepFirst rows).mergeSort fun a b => ptLeB a.1 b.1

/-- Keep the first occurrence of each position (positions only). -/
noncomputable def dedupPtsFirst : List Pt → List Pt
  | [] => []
  | x :: xs => x :: dedupPtsFirst (xs.filter fun y => decide (y ≠ x))
termination_by l => l.length
decreasing_by simpa using Nat.lt_succ_of_le (List.length_filter_le _ _)

/-- `np.unique(..., axis=0)` on a plain position array. -/
noncomputable def npUniquePts (ps : List Pt) : List Pt :=
  (dedupPtsFirst ps).mergeSort ptLeB

theorem dedupKeepFirst_subset (l : VFData) : ∀ x ∈ dedupKeepFirst l, x ∈ l := by
  induction l using dedupKeepFirst.induct with
  | case1 => simp [dedupKeepFirst]
  | case2 x xs ih =>
    intro y hy
    rw [dedupKeepFirst] at hy
    rcases List.mem_cons.mp hy with h | h
    · simp [h]
    · exact List.mem_cons_of_mem x (List.mem_of_mem_filter (ih y h))

theorem mem_fst_dedupKeepFirst (l : VFData) (p : Pt) :
    p ∈ (dedupKeepFirst l).map Prod.fst ↔ p ∈ l.map Prod.fst := by
  induction l using dedupKeepFirst.induct with
  | case1 => rw [dedupKeepFirst]
  | case2 x xs ih =>
    rw [dedupKeepFirst]
    simp only [List.map_cons, List.mem_cons]
    constructor
    · rintro (h | h)
      · exact Or.inl h
      · refine Or.inr ?_
        obtain ⟨a, ha, hfa⟩ := List.mem_map.mp (ih.mp h)
        exact hfa ▸ List.mem_map_of_mem Prod.fst (List.mem_of_mem_filter ha)
    · rintro (h | h)
      · exact Or.inl h
      · by_cases hpx : p = x.1
        · exact Or.inl hpx
        · refine Or.inr (ih.mpr ?_)
          obtain ⟨a, ha, hfa⟩ := List.mem_map.mp h
          refine hfa ▸ List.mem_map_of_mem Prod.fst ?_
          refine List.mem_filter.mpr ⟨ha, ?_⟩
          rw [decide_eq_true_eq]
          rw [hfa]
          exact hpx

theorem nodup_fst_dedupKeepFirst (l : VFData) :
    ((dedupKeepFirst l).map Prod.fst).Nodup := by
  induction l using dedupKeepFirst.induct with
  | case1 => simp [dedupKeepFirst]
  | case2 x xs ih =>
    rw [dedupKeepFirst]
    simp only [List.map_cons, List.nodup_cons]
    refine ⟨?_, ih⟩
    intro hmem
    obtain ⟨a, ha, hfa⟩ := List.mem_map.mp ((mem_fst_dedupKeepFirst _ _).mp hmem)
    have hf := (List.mem_filter.mp ha).2
    rw [decide_eq_true_eq] at hf
    exact hf hfa

theorem npUniqueRows_perm (rows : VFData) :
    (npUniqueRows rows).Perm (dedupKeepFirst rows) :=
  List.mergeSort_perm _ _

theorem npUniqueRows_subset (rows : VFData) :
    ∀ x ∈ npUniqueRows rows, x ∈ rows := fun x hx =>
  dedupKeepFirst_subset rows x ((npUniqueRows_perm rows).mem_iff.mp hx)

theorem mem_fst_npUniqueRows (rows : VFData) (p : Pt) :
    p ∈ (npUniqueRows rows).map Prod.fst ↔ p ∈ rows.map Prod.fst := by
  rw [← mem_fst_dedupKeepFirst rows p]
  exact ((npUniqueRows_perm rows).map Prod.fst).mem_iff

theorem nodup_fst_npUniqueRows (rows : VFData) :
    ((npUniqueRows rows).map Prod.fst).Nodup :=
  (((npUniqueRows_perm rows).map Prod.fst).nodup_iff).mpr
    (nodup_fst_dedupKeepFirst rows)

/-- `VectorField.__call__(xi)` at a single query position: uses the cached
interpolator when present, otherwise builds it from the current data points
(raising when there are none) and caches it.  Returns the (possibly NaN)
value row together with the updated object. -/
def VectorField.call (vf : VectorField) (itp : Interp) (xi : Pt) :
    Except String (Option VRow × VectorField) :=
  match vf.interp with
  | some snap => .ok (itp snap xi, vf)
  | none =>
    match vf.data with
    | none => .error "RuntimeError: VectorField has no data points to interpolate from!"
    | some rows => .ok (itp rows xi, { vf with interp := some rows })

/-- `VectorField.__call__` on a batch of query positions, as used inside the
binary operators (`self(new_points)`).  The returned rows are the same as
through `call`; the cache update (a pure function of the data) does not
affect them and is not threaded here. -/
def VectorField.evalRows (vf : VectorField) (itp : Interp) (ps : List Pt) :
    Except String (List (Option VRow)) :=
  match vf.interp with
  | some snap => .ok (ps.map (itp snap))
  | none =>
    match vf.data with
    | none => .error "RuntimeError: VectorField has no data points to interpolate from!"
    | some rows => .ok (ps.map (itp rows))

/-- `VectorField.add_data_points(points, values)`: checks the input shapes
(`(N,3)` positions against `(N,d)` values — a ragged values array cannot be
coerced to a complex `(N,d)` array and raises, and a row-count mismatch
raises); on the first data this fixes `ndims := d`; afterwards a different
`d` raises *before* the stored data is touched; otherwise the new rows are
appended, deduplicated by exact position via `np.unique` (keeping the
first-occurrence value row), and the cached interpolator is reset to be
rebuilt at the next call. -/
noncomputable def VectorField.add_data_points (vf : VectorField)
    (points : List Pt) (values : List VRow) : Except String VectorField :=
  if points.length ≠ values.length then
    .error "RuntimeError: Number of data points do not match in init_points and init_values!"
  else
    let d := (values.head?.map List.length).getD 0
    if values.any fun row => decide (row.length ≠ d) then
      .error "RuntimeError: Data point values must have shape (N, d)!"
    else
      match vf.data with
      | none =>
        .ok { data := some (npUniqueRows (points.zip values))
              interp := none
              ndims := some d }
      | some old =>
        if vf.ndims ≠ some d then
          .error "RuntimeError: Cannot add data points with different dimensionality!"
        else
          .ok { data := some (npUniqueRows (old ++ points.zip values))
                interp := none
                ndims := vf.ndims }

/-! ### Claim C4 -/

/-- Claim C4: evaluating a `VectorField` raises when it holds zero stored
data points; with at least one stored point, evaluation at a position
outside the convex hull of the stored points yields a NaN row (the
interpolator's documented out-of-hull behaviour), not an exception. -/
theorem spec_C4 (itp : Interp)
    (hitp : ∀ rows xi, xi ∉ convexHull ℝ (ptSet rows) → itp rows xi = none)
    (vf0 : VectorField) (h0d : vf0.data = none) (h0i : vf0.interp = none)
    (xi0 : Pt)
    (vf1 : VectorField) (rows : VFData) (h1d : vf1.data = some rows)
    (h1i : vf1.interp = none) (hne : rows ≠ []) (xi1 : Pt)
    (hout : xi1 ∉ convexHull ℝ (ptSet rows)) :
    vf0.call itp xi0 =
      .error "RuntimeError: VectorField has no data points to interpolate from!" ∧
    vf1.call itp xi1 = .ok (none, { vf1 with interp := some rows }) := by
  constructor
  · unfold VectorField.call
    rw [h0i]
    dsimp only
    rw [h0d]
  · unfold VectorField.call
    rw [h1i]
    dsimp only
    rw [h1d]
    dsimp only
    rw [hitp rows xi1 hout]

/-- The everywhere-NaN interpolator (trivially respects the out-of-hull
contract). -/
def itpNaN : Interp := fun _ _ => none

/-- A freshly constructed, empty `VectorField()`. -/
def vfEmpty : VectorField := ⟨none, none, none⟩

/-- The origin. -/
noncomputable def p000 : Pt := fun _ => 0

/-- The point `(1,1,1)`. -/
noncomputable def p111 : Pt := fun _ => 1

/-- A `VectorField` holding the single data point `(0,0,0) ↦ [1]`. -/
noncomputable def vfOnePoint : VectorField := ⟨some [(p000, [1])], none, some 1⟩

/-- Witness for C4: the empty field raises; the one-point field queried at
`(1,1,1)` (outside the hull `{(0,0,0)}`) yields NaN. -/
theorem spec_C4_witness :
    vfEmpty.call itpNaN p111 =
      .error "RuntimeError: VectorField has no data points to interpolate from!" ∧
    vfOnePoint.call itpNaN p111 =
      .ok (none, { vfOnePoint with interp := some [(p000, [1])] }) := by
  have hout : p111 ∉ convexHull ℝ (ptSet [(p000, ([1] : VRow))]) := by
    have hset : ptSet [(p000, ([1] : VRow))] = {p000} := by
      ext p
      simp [ptSet]
    rw [hset, convexHull_singleton]
    intro hmem
    have h0 := congrFun (Set.mem_singleton_iff.mp hmem) 0
    norm_num [p111, p000] at h0
  exact spec_C4 itpNaN (fun _ _ _ => rfl) vfEmpty rfl rfl p111
    vfOnePoint [(p000, [1])] rfl rfl (by simp) p111 hout

/-! ### Claim C5 -/

/-- Claim C5: after `add_data_points(points, values)` — (1) on a field that
already holds data of dimensionality `d0`, values of a different
dimensionality `d` raise (before any mutation: the embedding returns only
the error, producing no new state); (2) otherwise the stored positions are
exactly the union of the old and the new positions with exact-coordinate
duplicates removed (no duplicates remain, membership is the union), every
stored (position, value-row) pair is one of the old or new aligned pairs,
and the cached interpolator is invalidated, so the next evaluation rebuilds
it from the new data. -/
theorem spec_C5 (vf : VectorField) (points : List Pt) (values : List VRow)
    (d : ℕ) (hlen : points.length = values.length)
    (hrect : ∀ row ∈ values, row.length = d) (hnonempty : values ≠ []) :
    (∀ d0, vf.data ≠ none → vf.ndims = some d0 → d ≠ d0 →
      vf.add_data_points points values =
        .error "RuntimeError: Cannot add data points with different dimensionality!") ∧
    (vf.data = none ∨ vf.ndims = some d →
      ∃ vf2, vf.add_data_points points values = .ok vf2 ∧
        vf2.interp = none ∧
        vf2.pointsList.Nodup ∧
        (∀ p, p ∈ vf2.pointsList ↔ p ∈ vf.pointsList ∨ p ∈ points) ∧
        (∀ pr ∈ vf2.data.getD [], pr ∈ vf.data.getD [] ++ points.zip values) ∧
        (∀ itp xi rows2, vf2.data = some rows2 →
          vf2.call itp xi = .ok (itp rows2 xi, { vf2 with interp := some rows2 }))) := by
  obtain ⟨v0, vrest, rfl⟩ : ∃ v0 vrest, values = v0 :: vrest := by
    cases values with
    | nil => exact absurd rfl hnonempty
    | cons v0 vrest => exact ⟨v0, vrest, rfl⟩
  have hd : ((v0 :: vrest).head?.map List.length).getD 0 = d := by
    simp [hrect v0 (by simp)]
  have hany : ((v0 :: vrest).any fun row => decide (row.length ≠ d)) = false := by
    rw [List.any_eq_false]
    intro row hrow
    simpa using hrect row hrow
  constructor
  · intro d0 hdata hnd hne
    unfold VectorField.add_data_points
    rw [if_neg (by omega), hd]
    simp only [hany, Bool.false_eq_true, if_false]
    obtain ⟨old, hold⟩ : ∃ old, vf.data = some old := by
      cases hvd : vf.data with
      | none => exact absurd hvd hdata
      | some old => exact ⟨old, rfl⟩
    rw [hold]
    dsimp only
    rw [if_pos (by rw [hnd]; exact fun hc => hne (Option.some_injective ℕ hc).symm)]
  · intro hok
    unfold VectorField.add_data_points
    rw [if_neg (by omega), hd]
    simp only [hany, Bool.false_eq_true, if_false]
    cases hvd : vf.data with
    | none =>
      refine ⟨_, rfl, rfl, ?_, ?_, ?_, ?_⟩
      · exact nodup_fst_npUniqueRows _
      · intro p
        unfold VectorField.pointsList
        rw [hvd]
        simp only [Option.getD_some, Option.getD_none, List.map_nil,
          List.not_mem_nil, false_or]
        rw [mem_fst_npUniqueRows]
        rw [List.map_fst_zip points (v0 :: vrest) (by rw [hlen])]
      · intro pr hpr
        simp only [Option.getD_some, Option.getD_none, List.nil_append]
        exact npUniqueRows_subset _ pr (by simpa using hpr)
      · intro itp xi rows2 hrows2
        injection hrows2 with hr
        unfold VectorField.call
        dsimp only
        rw [hr]
    | some old =>
      rcases hok with hnone | hnd
      · rw [hvd] at hnone
        exact absurd hnone (by simp)
      · dsimp only
        rw [if_neg (by rw [hnd]; simp)]
        refine ⟨_, rfl, rfl, ?_, ?_, ?_, ?_⟩
        · exact nodup_fst_npUniqueRows _
        · intro p
          unfold VectorField.pointsList
          rw [hvd]
          simp only [Option.getD_some]
          rw [mem_fst_npUniqueRows]
          rw [List.map_append, List.mem_append,
            List.map_fst_zip points (v0 :: vrest) (by rw [hlen])]
        · intro pr hpr
          simp only [Option.getD_some]
          exact npUniqueRows_subset _ pr (by simpa using hpr)
        · intro itp xi rows2 hrows2
          injection hrows2 with hr
          unfold VectorField.call
          dsimp only
          rw [hr]

/-- Witness for C5: adding the single point `(1,1,1) ↦ [5]` to the one-point
field `vfOnePoint` (both of dimensionality `1`). -/
theorem spec_C5_witness :
    ([p111].length = [[(5 : ℂ)]].length) ∧
    (vfOnePoint.data = none ∨ vfOnePoint.ndims = some 1) ∧
    (∃ vf2, vfOnePoint.add_data_points [p111] [[(5 : ℂ)]] = .ok vf2 ∧
      vf2.interp = none ∧
      vf2.pointsList.Nodup ∧
      (∀ p, p ∈ vf2.pointsList ↔ p ∈ vfOnePoint.pointsList ∨ p ∈ [p111]) ∧
      (∀ pr ∈ vf2.data.getD [],
        pr ∈ vfOnePoint.data.getD [] ++ [p111].zip [[(5 : ℂ)]]) ∧
      (∀ itp xi rows2, vf2.data = some rows2 →
        vf2.call itp xi = .ok (itp rows2 xi, { vf2 with interp := some rows2 }))) :=
  ⟨rfl, Or.inr rfl,
    (spec_C5 vfOnePoint [p111] [[(5 : ℂ)]] 1 rfl (by simp) (by simp)).2
      (Or.inr rfl)⟩

/-! ### Claim C6 -/

/-- A numpy array of known rank 1 or 2 over elements `α` (a NaN-able
complex scalar is `Option ℂ`). -/
inductive NPArr (α : Type) where
  | r1 : List α → NPArr α
  | r2 : List (List α) → NPArr α

/-- numpy indexing `arr[:, 0]`: selects column 0 of a rank-2 array; applied
to a rank-1 array it raises `IndexError: too many indices for array`. -/
def NPArr.col0 {α : Type} [Inhabited α] : NPArr α → Except String (List α)
  | .r1 _ => .error "IndexError: too many indices for array"
  | .r2 xss => .ok (xss.map fun row => row.headD default)

/-- One term of `np.einsum('ij,ij->i', np.conj(A(pts)), B(pts))`: the
Hermitian product of two value rows, NaN (`none`) whenever either row is
NaN. -/
noncomputable def hermDotRow (a b : Option VRow) : Option ℂ :=
  match a, b with
  | some x, some y => some ((List.zipWith (fun u v => (starRingEnd ℂ) u * v) x y).sum)
  | _, _ => none

/-- `VectorField.__matmul__(other)` for a `VectorField` right operand:
after the initialization and equal-`ndims` checks, evaluates both fields at
the union of their sample points, forms the Hermitian inner products with
`np.einsum('ij,ij->i', ...)` — a **rank-1** array — and then filters NaN
rows with `np.isnan(new_values[:, 0])`, a rank-2 indexing of that rank-1
array, which raises `IndexError`.  The nominal continuation (drop NaN rows,
build the `d = 1` result field) is written out after the indexing for
fidelity, but is unreachable. -/
noncomputable def VectorField.matmul (A B : VectorField) (itp : Interp) :
    Except String VectorField :=
  match A.data with
  | none => .error "RuntimeError: This VectorField has not been initialized!"
  | some _ =>
    if A.ndims = B.ndims then
      let new_points := npUniquePts (A.pointsList ++ B.pointsList)
      match A.evalRows itp new_points with
      | .error e => .error e
      | .ok aRows =>
        match B.evalRows itp new_points with
        | .error e => .error e
        | .ok bRows =>
          let new_values : NPArr (Option ℂ) :=
            .r1 (List.zipWith hermDotRow aRows bRows)
          match new_values.col0 with
          | .error e => .error e
          | .ok col =>
            let keep := col.map Option.isSome
            let kept_points := (new_points.zip keep).filterMap
              fun pk => if pk.2 then some pk.1 else none
            let kept_values := ((List.zipWith hermDotRow aRows bRows).zip keep).filterMap
              fun vk => if vk.2 then some [vk.1.getD 0] else none
            .ok { data := some (kept_points.zip kept_values)
                  interp := none
                  ndims := some 1 }
    else
      .error "RuntimeError: Cannot dot VectorFields of different dimensions"

/-- A second one-point `VectorField` of dimensionality `1`. -/
noncomputable def vfOnePointB : VectorField := ⟨some [(p111, [2])], none, some 1⟩

/-- A one-point `VectorField` of dimensionality `2`. -/
noncomputable def vfTwoDim : VectorField := ⟨some [(p111, [2, 3])], none, some 2⟩

/-- Claim C6, evaluation at the failing input.  For two initialized
`VectorField`s of equal dimensionality, `A @ B` always raises
`IndexError` at the NaN-filtering line `np.isnan(new_values[:, 0])`,
because the `np.einsum('ij,ij->i', ...)` output is one-dimensional — it
never returns the claimed `d = 1` Hermitian-product field.  (The
unequal-dimensionality half of the claim does hold: that path raises the
dimension-mismatch error.) -/
theorem spec_C6_failing :
    VectorField.matmul vfOnePoint vfOnePointB itpNaN =
      .error "IndexError: too many indices for array" ∧
    VectorField.matmul vfOnePoint vfTwoDim itpNaN =
      .error "RuntimeError: Cannot dot VectorFields of different dimensions" := by
  constructor
  · rfl
  · rfl

/-! ## SimpleCoil and Loop (`field/simple_coil.py`, `field/loop.py`)

Geometric field sources with an Ohmic wire material.  The claims below
concern `get_impedance` (C9) and `calculate_induced_voltage` (C10); the
constructor assertions and `calculate_H_field` are not involved in any
claim and are not embedded. -/

/-- `np.linspace(a, b, n)` (endpoint included): `a + i·(b-a)/(n-1)`. -/
noncomputable def linspace (a b : ℝ) (n : ℕ) : List ℝ :=
  (List.range n).map fun i => a + (b - a) * (i : ℝ) / ((n : ℝ) - 1)

/-- `np.linspace(a, b, n, endpoint=False)`: `a + i·(b-a)/n`. -/
noncomputable def linspaceNoEnd (a b : ℝ) (n : ℕ) : List ℝ :=
  (List.range n).map fun i => a + (b - a) * (i : ℝ) / (n : ℝ)

/-- A NaN-propagating sum of complex samples (`np.sum` over an array that my
contain NaN entries). -/
noncomputable def sumNaN (l : List (Option ℂ)) : Option ℂ :=
  l.foldr
    (fun a acc =>
      match a, acc with
      | some x, some s => some (x + s)
      | _, _ => none)
    (some 0)

/-- `np.trapz(ys, xs)`: the trapezoidal rule `Σ (x₊-x)·(y₊+y)/2`, NaN as
soon as a NaN sample is involved. -/
noncomputable def trapzNaN : List ℝ → List (Option ℂ) → Option ℂ
  | x1 :: x2 :: xs, y1 :: y2 :: ys =>
    match y1, y2, trapzNaN (x2 :: xs) (y2 :: ys) with
    | some a, some b, some rest => some (rest + (((x2 - x1 : ℝ)) : ℂ) * (a + b) / 2)
    | _, _, _ => none
  | _, _ => some 0

/-- `np.allclose` with its default tolerances
(`|u i - v i| ≤ 1e-8 + 1e-5·|v i|` for every component). -/
noncomputable def npAllclose (u v : Pt) : Bool :=
  decide (∀ i, |u i - v i| ≤ 1e-8 + 1e-5 * |v i|)

/-- `np.cross` on 3-vectors. -/
noncomputable def cross3 (u v : Pt) : Pt :=
  ![u 1 * v 2 - u 2 * v 1, u 2 * v 0 - u 0 * v 2, u 0 * v 1 - u 1 * v 0]

/-- `np.linalg.norm` of a 3-vector. -/
noncomputable def norm3 (u : Pt) : ℝ :=
  Real.sqrt (u 0 ^ 2 + u 1 ^ 2 + u 2 ^ 2)

/-- The in-plane unit vector `ex` of the loop plane, by the source's
`np.allclose` branches on the axis. -/
noncomputable def planeEx (axis : Pt) : Pt :=
  if npAllclose axis ![0, 0, 1] then ![1, 0, 0]
  else if npAllclose axis ![0, 0, -1] then ![1, 0, 0]
  else fun i => cross3 axis ![0, 0, 1] i / norm3 (cross3 axis ![0, 0, 1])

/-- The in-plane vector `ey` of the loop plane. -/
noncomputable def planeEy (axis : Pt) : Pt :=
  if npAllclose axis ![0, 0, 1] then ![0, 1, 0]
  else if npAllclose axis ![0, 0, -1] then ![0, -1, 0]
  else cross3 axis (planeEx axis)

/-- `np.dot(B_values, axis)`: the axial projection of a (possibly NaN)
value row. -/
noncomputable def dotAxis (axis : Pt) (row : Option VRow) : Option ℂ :=
  match row with
  | none => none
  | some vals =>
    some (((List.range 3).map fun m => vals.getD m 0 * ((axis m : ℝ) : ℂ)).sum)

/-- The data snapshot `VectorField.__call__` would interpolate from: the
cached one if present, else the stored data (raising when there is none).
A batched evaluation `B_field(positions)` raises exactly when this does. -/
def VectorField.effData (vf : VectorField) : Except String VFData :=
  match vf.interp with
  | some snap => .ok snap
  | none =>
    match vf.data with
    | none => .error "RuntimeError: VectorField has no data points to interpolate from!"
    | some rows => .ok rows

structure SimpleCoil where
  radius : ℝ
  length : ℝ
  n_turns : ℝ
  material : Material
  wire_thickness : ℝ
  axis : Pt
  center : Pt

/-- `self.wire_radius = self.wire_thickness / 2.0`. -/
noncomputable def SimpleCoil.wire_radius (c : SimpleCoil) : ℝ :=
  c.wire_thickness / 2

/-- `total_wire_length = sqrt((2π·radius·n_turns)² + length²)`. -/
noncomputable def SimpleCoil.total_wire_length (c : SimpleCoil) : ℝ :=
  Real.sqrt ((2 * Real.pi * c.radius * c.n_turns) ^ 2 + c.length ^ 2)

/-- Naive wire resistance
`total_wire_length / (conductivity · π · wire_radius²)` (the claim's
hypotheses `σ > 0`, `wire_radius > 0` make the Python division defined). -/
noncomputable def SimpleCoil.resistance (c : SimpleCoil) : ℝ :=
  c.total_wire_length / (c.material.conductivity * Real.pi * c.wire_radius ^ 2)

/-- Ideal-solenoid inductance `μ₀·n_turns²·π·radius²/length`. -/
noncomputable def SimpleCoil.inductance (c : SimpleCoil) : ℝ :=
  VACUUM_PERMEABILITY_SI * c.n_turns ^ 2 * Real.pi * c.radius ^ 2 / c.length

/-- `SimpleCoil.get_impedance(ang_freq) = resistance + 1j·ang_freq·inductance`. -/
noncomputable def SimpleCoil.get_impedance (c : SimpleCoil) (ang_freq : ℝ) : ℂ :=
  (c.resistance : ℂ) + Complex.I * (ang_freq : ℂ) * (c.inductance : ℂ)

/-- The AC branch of `SimpleCoil.calculate_induced_voltage`: quadrature of
the axial flux over `N_RHO = 15` radii (square-root spaced), `N_PHI = 60`
angles and `int(n_turns)` parallel loops, then `-1j·ω·np.trapz(...)`. -/
noncomputable def SimpleCoil.inducedVoltageAC (c : SimpleCoil)
    (B_field : VectorField) (itp : Interp) (ang_freq : ℝ) :
    Except String (Option ℂ) :=
  match B_field.effData with
  | .error e => .error e
  | .ok rows =>
    let rho := (linspace 0 (c.wire_radius ^ 2) 15).map Real.sqrt
    let phi := linspaceNoEnd 0 (2 * Real.pi) 60
    let z := linspace (-c.length) c.length (Int.toNat ⌊c.n_turns⌋)
    let ex := planeEx c.axis
    let ey := planeEy c.axis
    let pos : ℝ → ℝ → ℝ → Pt := fun zk ri pj => fun i =>
      c.center i + ri * (Real.cos pj * ex i + Real.sin pj * ey i) + zk * c.axis i
    let fluxAt : ℝ → ℝ → ℝ → Option ℂ := fun zk ri pj =>
      dotAxis c.axis (itp rows (pos zk ri pj))
    let integrands : List (Option ℂ) := rho.map fun ri =>
      (sumNaN ((z.map fun zk => phi.map fun pj => fluxAt zk ri pj).flatten)).map
        fun s => s * (ri : ℂ) * (((4 * Real.pi / 60 : ℝ)) : ℂ)
    .ok ((trapzNaN rho integrands).map fun t => -Complex.I * (ang_freq : ℂ) * t)

/-- `SimpleCoil.calculate_induced_voltage(B_field, ang_freq)`: returns `0.0`
immediately when `ang_freq is None or ang_freq == 0.0`, otherwise performs
the flux quadrature against the supplied field. -/
noncomputable def SimpleCoil.calculate_induced_voltage (c : SimpleCoil)
    (B_field : VectorField) (itp : Interp) (ang_freq : Option ℝ) :
    Except String (Option ℂ) :=
  match ang_freq with
  | none => .ok (some 0)
  | some w => if w = 0 then .ok (some 0) else c.inducedVoltageAC B_field itp w

structure Loop where
  radius : ℝ
  material : Material
  wire_thickness : ℝ
  axis : Pt
  center : Pt

/-- `self.wire_radius = self.wire_thickness / 2.0`. -/
noncomputable def Loop.wire_radius (l : Loop) : ℝ := l.wire_thickness / 2

/-- The AC branch of `Loop.calculate_induced_voltage`: `N_RHO = 20`,
`N_PHI = 65`, a single loop, weight `2π/N_PHI`. -/
noncomputable def Loop.inducedVoltageAC (l : Loop) (B_field : VectorField)
    (itp : Interp) (ang_freq : ℝ) : Except String (Option ℂ) :=
  match B_field.effData with
  | .error e => .error e
  | .ok rows =>
    let rho := (linspace 0 (l.wire_radius ^ 2) 20).map Real.sqrt
    let phi := linspaceNoEnd 0 (2 * Real.pi) 65
    let ex := planeEx l.axis
    let ey := planeEy l.axis
    let pos : ℝ → ℝ → Pt := fun ri pj => fun i =>
      l.center i + ri * (Real.cos pj * ex i + Real.sin pj * ey i)
    let fluxAt : ℝ → ℝ → Option ℂ := fun ri pj =>
      dotAxis l.axis (itp rows (pos ri pj))
    let integrands : List (Option ℂ) := rho.map fun ri =>
      (sumNaN (phi.map fun pj => fluxAt ri pj)).map
        fun s => s * (ri : ℂ) * (((2 * Real.pi / 65 : ℝ)) : ℂ)
    .ok ((trapzNaN rho integrands).map fun t => -Complex.I * (ang_freq : ℂ) * t)

/-- `Loop.calculate_induced_voltage(B_field, ang_freq)`. -/
noncomputable def Loop.calculate_induced_voltage (l : Loop)
    (B_field : VectorField) (itp : Interp) (ang_freq : Option ℝ) :
    Except String (Option ℂ) :=
  match ang_freq with
  | none => .ok (some 0)
  | some w => if w = 0 then .ok (some 0) else l.inducedVoltageAC B_field itp w

/-! ### Claim C9 -/

/-- Claim C9: for a `SimpleCoil` with Ohmic material of conductivity
`σ > 0`, `wire_radius > 0` and `length > 0`, `get_impedance(0)` is purely
real and equals `total_wire_length / (σ·π·wire_radius²)`; the real part is
the same for every `ω`; and for every `ω > 0` the imaginary part equals
`ω·μ₀·n_turns²·π·radius²/length`. -/
theorem spec_C9 (c : SimpleCoil) (hs : 0 < c.material.conductivity)
    (hw : 0 < c.wire_radius) (hl : 0 < c.length) :
    (c.get_impedance 0).im = 0 ∧
    (c.get_impedance 0).re =
      c.total_wire_length / (c.material.conductivity * Real.pi * c.wire_radius ^ 2) ∧
    (∀ ang_freq : ℝ, (c.get_impedance ang_freq).re =
      c.total_wire_length / (c.material.conductivity * Real.pi * c.wire_radius ^ 2)) ∧
    (∀ ang_freq : ℝ, 0 < ang_freq → (c.get_impedance ang_freq).im =
      ang_freq * (VACUUM_PERMEABILITY_SI * c.n_turns ^ 2 * Real.pi * c.radius ^ 2
        / c.length)) := by
  have hre : ∀ w : ℝ, (c.get_impedance w).re = c.resistance := by
    intro w
    unfold SimpleCoil.get_impedance
    simp [Complex.add_re, Complex.mul_re, Complex.mul_im, Complex.I_re,
      Complex.I_im, Complex.ofReal_re, Complex.ofReal_im]
  have him : ∀ w : ℝ, (c.get_impedance w).im = w * c.inductance := by
    intro w
    unfold SimpleCoil.get_impedance
    simp [Complex.add_im, Complex.mul_re, Complex.mul_im, Complex.I_re,
      Complex.I_im, Complex.ofReal_re, Complex.ofReal_im]
  refine ⟨by rw [him 0, zero_mul], hre 0, hre, fun w _ => ?_⟩
  rw [him w]
  unfold SimpleCoil.inductance
  rfl

/-- A concrete coil: radius 1, length 1, one turn, copper-like wire of
thickness 2 (wire radius 1), z-axis, centered at the origin. -/
noncomputable def unitCoil : SimpleCoil :=
  { radius := 1
    length := 1
    n_turns := 1
    material := copperLike
    wire_thickness := 2
    axis := ![0, 0, 1]
    center := ![0, 0, 0] }

/-- Witness for C9 at `unitCoil`. -/
theorem spec_C9_witness :
    (0 < unitCoil.material.conductivity ∧ 0 < unitCoil.wire_radius ∧
      0 < unitCoil.length) ∧
    (unitCoil.get_impedance 0).im = 0 ∧
    (unitCoil.get_impedance 0).re = unitCoil.total_wire_length /
      (unitCoil.material.conductivity * Real.pi * unitCoil.wire_radius ^ 2) ∧
    (∀ ang_freq : ℝ, 0 < ang_freq → (unitCoil.get_impedance ang_freq).im =
      ang_freq * (VACUUM_PERMEABILITY_SI * unitCoil.n_turns ^ 2 * Real.pi *
        unitCoil.radius ^ 2 / unitCoil.length)) := by
  have h1 : (0:ℝ) < unitCoil.material.conductivity := by
    norm_num [unitCoil, copperLike]
  have h2 : (0:ℝ) < unitCoil.wire_radius := by
    norm_num [unitCoil, SimpleCoil.wire_radius]
  have h3 : (0:ℝ) < unitCoil.length := by norm_num [unitCoil]
  obtain ⟨ha, hb, _, hd⟩ := spec_C9 unitCoil h1 h2 h3
  exact ⟨⟨h1, h2, h3⟩, ha, hb, hd⟩

/-! ### Claim C10 -/

/-- Claim C10: for every `SimpleCoil` and every `Loop`,
`calculate_induced_voltage(B_field, ang_freq)` with `ang_freq` equal to
`None` or `0.0` returns exactly `0.0` for *every* supplied field — in
particular for an uninitialized field (whose evaluation would raise) or
one whose hull excludes the coil (whose evaluation would be NaN): the
early return never touches `B_field`. -/
theorem spec_C10 :
    (∀ (c : SimpleCoil) (B_field : VectorField) (itp : Interp),
      c.calculate_induced_voltage B_field itp none = .ok (some 0) ∧
      c.calculate_induced_voltage B_field itp (some 0) = .ok (some 0)) ∧
    (∀ (l : Loop) (B_field : VectorField) (itp : Interp),
      l.calculate_induced_voltage B_field itp none = .ok (some 0) ∧
      l.calculate_induced_voltage B_field itp (some 0) = .ok (some 0)) := by
  refine ⟨fun c B itp => ⟨rfl, ?_⟩, fun l B itp => ⟨rfl, ?_⟩⟩
  · unfold SimpleCoil.calculate_induced_voltage
    dsimp only
    rw [if_pos rfl]
  · unfold Loop.calculate_induced_voltage
    dsimp only
    rw [if_pos rfl]

end SuscepCalc
